import Mathlib

/-!
Verification of the marks aggregation and reporting pipeline of the
CLG_PORTAL repository (src/app.py), shallowly embedded in Lean 4.

The embedding models:
* Python scalar values stored in a marks document (strings or ints),
  and Python's `int(...)` conversion including its failure cases;
* the per-field normalization performed by `view_marks`
  (`int(m.get(key, 0))` inside `try/except` substituting 0);
* the unguarded conversion performed by `download_marksheet`
  (`int(v.get(k, 0))` with no `try/except`), as an `Except` computation;
* the aggregation loop of `view_marks` (sums, counts, top subject with
  running maximum initialised to -1 and strict `>` update);
* the summary computation of `download_marksheet`, including its
  division `/ len(subjects)` that is unguarded against zero subjects;
* Python's `round(x, ndigits)` as exact rational round-half-to-even
  at the given number of decimal places;
* Python's `range(1, 8)` used by `delete_student_branch` and
  `branch_dashboard`;
* the semester selection `int(student.get("semester", semester))`
  shared by `view_marks` and `download_marksheet`;
* the eligibility status `"Eligible" if att >= 75 else "Shortage"`
  of `download_marksheet`, together with the unused configuration
  value `Config.ATTENDANCE_THRESHOLD` from src/config.py.
-/

deriving instance DecidableEq for Except

namespace CLGPortal

/-- A Python scalar as stored in a marks document: either a string
(as saved by `save_all_marks`, which stores the raw form fields) or an
integer. -/
inductive PyVal where
  | str (s : String) : PyVal
  | int (n : ℤ) : PyVal
deriving DecidableEq, Repr

/-- Interpret a list of characters as a nonempty run of decimal digits,
the digit part accepted by Python's `int(str)`. -/
def digitsToNat : List Char → Option ℕ
  | [] => none
  | cs =>
    if cs.all Char.isDigit then
      some (cs.foldl (fun acc c => 10 * acc + (c.toNat - '0'.toNat)) 0)
    else none

/-- Strip leading and trailing whitespace from a character list (the
whitespace stripping Python's `int(str)` performs on its argument). -/
def trimChars (cs : List Char) : List Char :=
  ((cs.dropWhile Char.isWhitespace).reverse.dropWhile Char.isWhitespace).reverse

/-- Python's `int(s)` on a string: strip surrounding whitespace, accept an
optional sign followed by at least one decimal digit; anything else fails
(`ValueError`). -/
def pyIntOfString (s : String) : Option ℤ :=
  match trimChars s.data with
  | '+' :: cs => (digitsToNat cs).map (fun n => (n : ℤ))
  | '-' :: cs => (digitsToNat cs).map (fun n => -(n : ℤ))
  | cs => (digitsToNat cs).map (fun n => (n : ℤ))

/-- Python's `int(v)` on a stored scalar: the identity on integers, string
parsing on strings, raising `ValueError` (modelled as `Except.error`) when
the string does not parse. -/
def pyInt : PyVal → Except String ℤ
  | .int n => .ok n
  | .str s =>
    match pyIntOfString s with
    | some n => .ok n
    | none => .error ("ValueError: invalid literal for int: " ++ s)

/-- One raw per-subject entry of a marks document.  Only the four keys
`IA1`, `IA2`, `IA3`, `attendance` are ever read by the code, each possibly
absent (`none` models a missing dict key). -/
structure RawSubject where
  IA1 : Option PyVal
  IA2 : Option PyVal
  IA3 : Option PyVal
  attendance : Option PyVal
deriving DecidableEq, Repr

/-- A raw marks map `mdoc["marks"]`: subject name to raw entry, in the
dict's iteration (insertion) order. -/
abbrev Marks := List (String × RawSubject)

/-- A normalized per-subject entry: all four fields converted to integers. -/
structure NSubject where
  IA1 : ℤ
  IA2 : ℤ
  IA3 : ℤ
  attendance : ℤ
deriving DecidableEq, Repr

/-- A normalized marks map, in iteration order. -/
abbrev NMarks := List (String × NSubject)

/-- `view_marks` field normalization: `int(m.get(key, 0))` wrapped in
`try/except` that substitutes 0 — missing key defaults to the integer 0,
and any conversion failure yields 0.  Total by construction: it never
raises. -/
def normField (v : Option PyVal) : ℤ :=
  match pyInt (v.getD (.int 0)) with
  | .ok n => n
  | .error _ => 0

/-- `view_marks` normalization of one subject entry (the inner loop over
`["IA1", "IA2", "IA3", "attendance"]`). -/
def normSubject (r : RawSubject) : NSubject :=
  ⟨normField r.IA1, normField r.IA2, normField r.IA3, normField r.attendance⟩

/-- `view_marks` normalization of a whole marks map. -/
def normMarks (m : Marks) : NMarks :=
  m.map (fun p => (p.1, normSubject p.2))

/-- `download_marksheet` field conversion: `int(v.get(k, 0))` with no
`try/except` — a missing key defaults to the integer 0, but a conversion
failure propagates as an exception. -/
def pdfField (v : Option PyVal) : Except String ℤ :=
  pyInt (v.getD (.int 0))

/-- The IA total of a normalized subject: `IA1 + IA2 + IA3`. -/
def subjectTotal (s : NSubject) : ℤ :=
  s.IA1 + s.IA2 + s.IA3

/-- Round a rational to the nearest integer, ties to even — the rounding
Python's built-in `round` performs. -/
def roundHalfEven (q : ℚ) : ℤ :=
  if q - ⌊q⌋ < 1 / 2 then ⌊q⌋
  else if 1 / 2 < q - ⌊q⌋ then ⌊q⌋ + 1
  else if ⌊q⌋ % 2 = 0 then ⌊q⌋ else ⌊q⌋ + 1

/-- Python's `round(x, nd)`: round-half-to-even at `nd` decimal places,
modelled exactly over the rationals. -/
def pyRound (q : ℚ) (nd : ℕ) : ℚ :=
  (roundHalfEven (q * 10 ^ nd) : ℚ) / 10 ^ nd

/-- `roundHalfEven (a / b)` computed on the integer fraction `a / b`
(`b > 0`) with integer arithmetic only, so that it evaluates by kernel
reduction: `f` is the floor of the quotient and `r = a - f * b` its
remainder, and `a / b - f` compares to `1 / 2` as `2 * r` compares
to `b`. -/
def rheFrac (a b : ℤ) : ℤ :=
  let f := a.fdiv b
  let r := a - f * b
  if 2 * r < b then f
  else if b < 2 * r then f + 1
  else if f % 2 = 0 then f else f + 1

/-- `round(a / b, nd)` on the integer fraction `a / b` (`b > 0`):
the executable form of `pyRound (a / b) nd`
(`pyRoundFrac_eq_pyRound` below). -/
def pyRoundFrac (a b : ℤ) (nd : ℕ) : ℚ :=
  Rat.divInt (rheFrac (a * 10 ^ nd) b) (10 ^ nd)

/-! ### The `view_marks` aggregation loop

`view_marks` walks the (already normalized) marks map once, accumulating
`total_ia_sum`, `total_ia_count` (incremented by 3 per subject),
`total_attendance`, and the running top subject: `top_total` starts at
`-1`, `top_subject` at `None`, and both update exactly when the subject's
IA total is strictly greater than `top_total`. -/

/-- Accumulator of the `view_marks` loop. -/
structure ViewAcc where
  totalIASum : ℤ
  totalIACount : ℤ
  totalAttendance : ℤ
  topTotal : ℤ
  topSubject : Option String
deriving DecidableEq, Repr

/-- One iteration of the `view_marks` loop body. -/
def viewStep (acc : ViewAcc) (p : String × NSubject) : ViewAcc :=
  let ia := subjectTotal p.2
  { totalIASum := acc.totalIASum + ia
    totalIACount := acc.totalIACount + 3
    totalAttendance := acc.totalAttendance + p.2.attendance
    topTotal := if ia > acc.topTotal then ia else acc.topTotal
    topSubject := if ia > acc.topTotal then some p.1 else acc.topSubject }

/-- The `view_marks` loop, in iteration order. -/
def viewLoop : NMarks → ViewAcc → ViewAcc
  | [], acc => acc
  | p :: rest, acc => viewLoop rest (viewStep acc p)

/-- The full `view_marks` aggregation, from the initial accumulator
`(0, 0, 0, -1, None)`. -/
def viewAgg (m : NMarks) : ViewAcc :=
  viewLoop m ⟨0, 0, 0, -1, none⟩

/-- `view_marks`: `avg_ia = round(total_ia_sum / total_ia_count, 1) if
total_ia_count > 0 else 0`. -/
def viewAvgIA (m : NMarks) : ℚ :=
  let a := viewAgg m
  if 0 < a.totalIACount then pyRoundFrac a.totalIASum a.totalIACount 1 else 0

/-- `view_marks`: `avg_attendance = round(total_attendance /
total_subjects, 1) if total_subjects > 0 else 0`, with `total_subjects =
len(marks)`. -/
def viewAvgAtt (m : NMarks) : ℚ :=
  if 0 < m.length then pyRoundFrac (viewAgg m).totalAttendance (m.length : ℤ) 1 else 0

/-- `view_marks`: the `top_subject` result of the loop. -/
def viewTopSubject (m : NMarks) : Option String :=
  (viewAgg m).topSubject

/-! ### The `download_marksheet` summary and table

`download_marksheet` converts fields with bare `int(...)` (no
`try/except`), computes
`avg_ia = round(total_ia_sum / total_ia_count, 2)` where
`total_ia_count = len(subjects) * 3 if subjects else 1`, and
`avg_att = round(sum(...) / len(subjects), 1)` — the latter division is
unguarded, so zero subjects raise `ZeroDivisionError`.  Each table row
carries the converted fields, the total, and the status
`"Eligible" if att >= 75 else "Shortage"`. -/

/-- `download_marksheet` conversion of one subject entry into a normalized
entry; any field that fails `int(...)` propagates the exception. -/
def pdfSubject (r : RawSubject) : Except String NSubject :=
  match pdfField r.IA1 with
  | .error e => .error e
  | .ok a =>
    match pdfField r.IA2 with
    | .error e => .error e
    | .ok b =>
      match pdfField r.IA3 with
      | .error e => .error e
      | .ok c =>
        match pdfField r.attendance with
        | .error e => .error e
        | .ok d => .ok ⟨a, b, c, d⟩

/-- `total_ia_sum` of `download_marksheet`:
`sum(sum(int(marks[sub].get(k, 0)) for k in ["IA1","IA2","IA3"]) for sub
in subjects)`; the first failing conversion propagates. -/
def pdfIASum : Marks → Except String ℤ
  | [] => .ok 0
  | (_, r) :: rest =>
    match pdfField r.IA1 with
    | .error e => .error e
    | .ok a =>
      match pdfField r.IA2 with
      | .error e => .error e
      | .ok b =>
        match pdfField r.IA3 with
        | .error e => .error e
        | .ok c =>
          match pdfIASum rest with
          | .error e => .error e
          | .ok s => .ok (a + b + c + s)

/-- The attendance sum of `download_marksheet`:
`sum(int(marks[sub].get("attendance", 0)) for sub in subjects)`. -/
def pdfAttSum : Marks → Except String ℤ
  | [] => .ok 0
  | (_, r) :: rest =>
    match pdfField r.attendance with
    | .error e => .error e
    | .ok d =>
      match pdfAttSum rest with
      | .error e => .error e
      | .ok s => .ok (d + s)

/-- The eligibility status of a table row:
`"Eligible" if att >= 75 else "Shortage"` (literal 75 in the source). -/
def pdfStatus (att : ℤ) : String :=
  if att ≥ 75 then "Eligible" else "Shortage"

/-- One `download_marksheet` table row:
`[sub, ia1, ia2, ia3, att, total, status]`. -/
structure PdfRow where
  subject : String
  IA1 : ℤ
  IA2 : ℤ
  IA3 : ℤ
  attendance : ℤ
  total : ℤ
  status : String
deriving DecidableEq, Repr

/-- The `download_marksheet` table body (the rows below the header). -/
def pdfRows : Marks → Except String (List PdfRow)
  | [] => .ok []
  | (sub, r) :: rest =>
    match pdfSubject r with
    | .error e => .error e
    | .ok s =>
      match pdfRows rest with
      | .error e => .error e
      | .ok tl =>
        .ok (⟨sub, s.IA1, s.IA2, s.IA3, s.attendance,
              subjectTotal s, pdfStatus s.attendance⟩ :: tl)

/-- The numeric/tabular content of the generated PDF: the two summary
scalars and the table body. -/
structure PdfSummary where
  avgIA : ℚ
  avgAtt : ℚ
  rows : List PdfRow
deriving DecidableEq, Repr

/-- The `download_marksheet` computation over a marks map, in source
order: the IA sum (first conversion failure raises), `avg_ia` with the
count guarded by `if subjects else 1`, then `avg_att` whose division by
`len(subjects)` raises `ZeroDivisionError` on an empty map, then the
table rows. -/
def download_marksheet_summary (m : Marks) : Except String PdfSummary :=
  match pdfIASum m with
  | .error e => .error e
  | .ok iaSum =>
    let iaCount : ℤ := if m.length ≠ 0 then 3 * m.length else 1
    let avgIA := pyRoundFrac iaSum iaCount 2
    match pdfAttSum m with
    | .error e => .error e
    | .ok attSum =>
      if m.length = 0 then
        .error "ZeroDivisionError: division by zero"
      else
        match pdfRows m with
        | .error e => .error e
        | .ok rows => .ok ⟨avgIA, pyRoundFrac attSum (m.length : ℤ) 1, rows⟩

/-! ### Term ranges (`branch_dashboard`, `delete_student_branch`,
`upload_notes`) -/

/-- Python's `range(a, b)`: the integers `a, a+1, ..., b-1`. -/
def pyRange (a b : ℕ) : List ℕ :=
  (List.range (b - a)).map (fun i => a + i)

/-- `branch_dashboard`: `semesters = list(range(1, 8))`, the semester
choices offered for entering marks. -/
def branchDashboardSemesters : List ℕ :=
  pyRange 1 8

/-- `delete_student_branch`: the loop `for s in range(1, 8):
db[f"marks_sem{s}"].delete_many({"usn": usn})` — the semesters whose
marks partitions are purged when a student is deleted. -/
def deleteStudentSemesters : List ℕ :=
  pyRange 1 8

/-- The marks store, abstracted: for each semester number, the list of
(usn, marks) records in the `marks_sem<n>` collection. -/
abbrev MarksStore := ℕ → List (String × Marks)

/-- The effect of `delete_student_branch` on the marks store: every
semester in `deleteStudentSemesters` has the student's records removed;
any other partition is untouched. -/
def deleteStudentMarks (store : MarksStore) (usn : String) : MarksStore :=
  fun s =>
    if s ∈ deleteStudentSemesters then (store s).filter (fun r => r.1 ≠ usn)
    else store s

/-- The semester list of the `upload_notes` subjects table, which
enumerates subjects for semesters 1 through 8 (`{1: [...], ..., 8:
["Project", "Internship"]}`). -/
def uploadNotesSemesters : List ℕ :=
  [1, 2, 3, 4, 5, 6, 7, 8]

/-! ### Semester selection (`view_marks` and `download_marksheet`)

Both student-facing renderers begin with
`semester = int(student.get("semester", semester))`: the URL path
parameter is only the fallback used when the student document has no
`semester` field. -/

/-- A stored student document, as the dict of its fields. -/
abbrev StudentDoc := List (String × PyVal)

/-- Python's `student.get(key, default)`. -/
def dictGet (d : List (String × PyVal)) (k : String) (dflt : PyVal) : PyVal :=
  match d.find? (fun p => p.1 = k) with
  | some p => p.2
  | none => dflt

/-- Python's `key in dict`: whether the student document carries the
field. -/
def hasKey (d : List (String × PyVal)) (k : String) : Bool :=
  (d.find? (fun p => p.1 = k)).isSome

/-- `int(student.get("semester", semester))`, shared by `view_marks` and
`download_marksheet`; `semester` is the URL path parameter. -/
def effectiveSemester (student : StudentDoc) (urlSem : ℤ) : Except String ℤ :=
  pyInt (dictGet student "semester" (.int urlSem))

/-- `view_marks` as a function of the student document, the per-semester
marks store of this student, and the URL parameter: resolve the semester,
then normalize and aggregate that semester's marks. -/
def viewMarksForRequest (student : StudentDoc) (bySem : ℤ → Marks)
    (urlSem : ℤ) : Except String (ℚ × ℚ × Option String) :=
  match effectiveSemester student urlSem with
  | .error e => .error e
  | .ok sem =>
    let m := normMarks (bySem sem)
    .ok (viewAvgIA m, viewAvgAtt m, viewTopSubject m)

/-- `download_marksheet` as a function of the student document, the
per-semester marks store of this student, and the URL parameter. -/
def downloadForRequest (student : StudentDoc) (bySem : ℤ → Marks)
    (urlSem : ℤ) : Except String PdfSummary :=
  match effectiveSemester student urlSem with
  | .error e => .error e
  | .ok sem => download_marksheet_summary (bySem sem)

/-! ### Configuration (src/config.py) -/

/-- The configuration object of src/config.py; only the field the claims
mention is modelled.  `ATTENDANCE_THRESHOLD` defaults to 75.0 and is
configurable through the environment. -/
structure Config where
  ATTENDANCE_THRESHOLD : ℚ
deriving DecidableEq, Repr

/-- A run of the `download_marksheet` status computation under a given
configuration.  The source line is
`status = "Eligible" if att >= 75 else "Shortage"`: it compares against
the literal 75 and never reads `Config.ATTENDANCE_THRESHOLD`, so the
configuration argument is unused, exactly as in the source. -/
def pdfStatusRun (cfg : Config) (att : ℤ) : String :=
  pdfStatus att

/-- A run of the whole `download_marksheet` summary under a given
configuration; the body never consults the configuration. -/
def downloadRun (cfg : Config) (m : Marks) : Except String PdfSummary :=
  download_marksheet_summary m

/-! ### Spec-side derived quantities -/

/-- The spec's "sum of all IA1, IA2, IA3 across all subjects". -/
def subjectsIASum (m : NMarks) : ℤ :=
  (m.map (fun p => subjectTotal p.2)).sum

/-- The spec's "sum of attendancePercent across subjects". -/
def subjectsAttSum (m : NMarks) : ℤ :=
  (m.map (fun p => p.2.attendance)).sum

/-- The running maximum of the subjects' IA totals, started from `t`
(the loop starts it from `-1`). -/
def runMax (t : ℤ) (m : NMarks) : ℤ :=
  m.foldl (fun a p => max a (subjectTotal p.2)) t

/-- The first subject in iteration order whose IA total equals `M`. -/
def firstTopSubject (m : NMarks) (M : ℤ) : Option String :=
  (m.find? (fun p => subjectTotal p.2 == M)).map Prod.fst

/-! ### Concrete inputs used to settle the claims -/

/-- A marks document whose subjects were saved with blank form fields —
exactly the shape `save_all_marks` stores when a teacher saves the page
without filling the inputs (every field the empty string). -/
def blankSubjectMarks : Marks :=
  [("Subject1", ⟨some (.str ""), some (.str ""), some (.str ""), some (.str "")⟩)]

/-- A single-subject marks document with scores 10, 10, 11 and
attendance 80, stored as strings the way `save_all_marks` stores them. -/
def oneSubjectMarks : Marks :=
  [("Subject1", ⟨some (.str "10"), some (.str "10"), some (.str "11"), some (.str "80")⟩)]

/-- A normalized marks map with one subject whose stored scores were
negative strings: normalization (`int("-5")`) yields negative integers. -/
def negativeMarks : NMarks :=
  [("Subject1", ⟨-5, -5, -5, 0⟩)]

/-- A normalized marks map with two subjects tied at IA total 30. -/
def tiedMarks : NMarks :=
  [("SubjectA", ⟨10, 10, 10, 80⟩), ("SubjectB", ⟨15, 10, 5, 90⟩)]

/-- A raw subject whose scores were stored as the string "100": each
field normalizes to 100, far outside the 0–30 score range, because the
code validates no ranges. -/
def outOfRangeSubject : RawSubject :=
  ⟨some (.str "100"), some (.str "100"), some (.str "100"), some (.str "0")⟩

/-- A marks document containing `outOfRangeSubject`. -/
def outOfRangeMarks : Marks :=
  [("Subject1", outOfRangeSubject)]

/-- A marks document with one subject exactly at the attendance
boundary 75 and one just below it. -/
def boundaryMarks : Marks :=
  [("SubjectA", ⟨some (.int 20), some (.int 20), some (.int 20), some (.int 75)⟩),
   ("SubjectB", ⟨some (.int 20), some (.int 20), some (.int 20), some (.int 74)⟩)]

/-- A student document that carries a `semester` field. -/
def studentWithSemester : StudentDoc :=
  [("name", .str "A"), ("semester", .int 3)]

/-- A per-semester marks store holding `oneSubjectMarks` in semester 3
and `boundaryMarks` in semester 5. -/
def demoBySem : ℤ → Marks :=
  fun s => if s = 3 then oneSubjectMarks else if s = 5 then boundaryMarks else []

/-- A marks store in which student "X" has a record in every semester
partition 1..8. -/
def storeX : MarksStore :=
  fun _ => [("X", oneSubjectMarks)]

/-- The summary `download_marksheet` computes on `oneSubjectMarks`:
average IA 10.33 (2 decimal places), average attendance 80, one
eligible row. -/
def oneSubjectSummary : PdfSummary :=
  ⟨Rat.divInt 1033 100, 80, [⟨"Subject1", 10, 10, 11, 80, 31, "Eligible"⟩]⟩

/-- The table body `download_marksheet` computes on `boundaryMarks`:
attendance 75 is Eligible, attendance 74 is Shortage. -/
def boundaryRows : List PdfRow :=
  [⟨"SubjectA", 20, 20, 20, 75, 60, "Eligible"⟩,
   ⟨"SubjectB", 20, 20, 20, 74, 60, "Shortage"⟩]

/-! ### Agreement of the two rounding presentations -/

lemma fdiv_eq_floor_div (a b : ℤ) (hb : 0 < b) :
    a.fdiv b = ⌊(a : ℚ) / (b : ℚ)⌋ := by
  obtain ⟨n, rfl⟩ : ∃ n : ℕ, b = (n : ℤ) := ⟨b.toNat, (Int.toNat_of_nonneg hb.le).symm⟩
  have : ((n : ℤ) : ℚ) = (n : ℚ) := by push_cast; rfl
  rw [this, Rat.floor_intCast_div_natCast, Int.fdiv_eq_ediv a (by exact_mod_cast hb.le)]

lemma rheFrac_eq_roundHalfEven (a b : ℤ) (hb : 0 < b) :
    rheFrac a b = roundHalfEven ((a : ℚ) / (b : ℚ)) := by
  have hbQ : (0 : ℚ) < (b : ℚ) := by exact_mod_cast hb
  have hfl : a.fdiv b = ⌊(a : ℚ) / (b : ℚ)⌋ := fdiv_eq_floor_div a b hb
  have hrem : (a : ℚ) / (b : ℚ) - (a.fdiv b : ℚ)
      = ((a - a.fdiv b * b : ℤ) : ℚ) / (b : ℚ) := by
    push_cast
    field_simp
    ring
  have hlt : ((a - a.fdiv b * b : ℤ) : ℚ) / (b : ℚ) < 1 / 2
      ↔ 2 * (a - a.fdiv b * b) < b := by
    rw [div_lt_div_iff₀ hbQ (by norm_num : (0 : ℚ) < 2), one_mul, mul_comm]
    exact_mod_cast Iff.rfl
  have hgt : (1 : ℚ) / 2 < ((a - a.fdiv b * b : ℤ) : ℚ) / (b : ℚ)
      ↔ b < 2 * (a - a.fdiv b * b) := by
    rw [div_lt_div_iff₀ (by norm_num : (0 : ℚ) < 2) hbQ, one_mul, mul_comm]
    exact_mod_cast Iff.rfl
  rw [rheFrac, roundHalfEven, ← hfl, hrem]
  simp only [hlt, hgt]

lemma pyRoundFrac_eq_pyRound (a b : ℤ) (hb : 0 < b) (nd : ℕ) :
    pyRoundFrac a b nd = pyRound ((a : ℚ) / (b : ℚ)) nd := by
  rw [pyRoundFrac, pyRound, Rat.divInt_eq_div,
    rheFrac_eq_roundHalfEven _ _ hb]
  have : ((a * 10 ^ nd : ℤ) : ℚ) / (b : ℚ) = (a : ℚ) / (b : ℚ) * 10 ^ nd := by
    push_cast
    ring
  rw [this]
  push_cast
  ring

/-! ### Characterisation of the `view_marks` loop -/

lemma viewLoop_totalIASum (m : NMarks) :
    ∀ acc : ViewAcc, (viewLoop m acc).totalIASum = acc.totalIASum + subjectsIASum m := by
  induction m with
  | nil => intro acc; simp [viewLoop, subjectsIASum]
  | cons p rest ih =>
    intro acc
    rw [viewLoop, ih]
    simp only [viewStep, subjectsIASum, List.map_cons, List.sum_cons]
    ring

lemma viewLoop_totalIACount (m : NMarks) :
    ∀ acc : ViewAcc, (viewLoop m acc).totalIACount = acc.totalIACount + 3 * m.length := by
  induction m with
  | nil => intro acc; simp [viewLoop]
  | cons p rest ih =>
    intro acc
    rw [viewLoop, ih]
    simp only [viewStep, List.length_cons]
    push_cast
    ring

lemma viewLoop_totalAttendance (m : NMarks) :
    ∀ acc : ViewAcc, (viewLoop m acc).totalAttendance = acc.totalAttendance + subjectsAttSum m := by
  induction m with
  | nil => intro acc; simp [viewLoop, subjectsAttSum]
  | cons p rest ih =>
    intro acc
    rw [viewLoop, ih]
    simp only [viewStep, subjectsAttSum, List.map_cons, List.sum_cons]
    ring

lemma le_runMax (m : NMarks) : ∀ t : ℤ, t ≤ runMax t m := by
  induction m with
  | nil => intro t; simp [runMax]
  | cons p rest ih =>
    intro t
    calc t ≤ max t (subjectTotal p.2) := le_max_left _ _
    _ ≤ runMax (max t (subjectTotal p.2)) rest := ih _
    _ = runMax t (p :: rest) := rfl

lemma mem_le_runMax (m : NMarks) :
    ∀ t : ℤ, ∀ p ∈ m, subjectTotal p.2 ≤ runMax t m := by
  induction m with
  | nil => intro t p hp; cases hp
  | cons q rest ih =>
    intro t p hp
    rcases List.mem_cons.mp hp with h | h
    · subst h
      calc subjectTotal p.2 ≤ max t (subjectTotal p.2) := le_max_right _ _
      _ ≤ runMax (max t (subjectTotal p.2)) rest := le_runMax rest _
    · exact ih _ p h

lemma firstTopSubject_cons (p : String × NSubject) (rest : NMarks) (M : ℤ) :
    firstTopSubject (p :: rest) M =
      if subjectTotal p.2 = M then some p.1 else firstTopSubject rest M := by
  by_cases h : subjectTotal p.2 = M
  · simp [firstTopSubject, List.find?_cons, h]
  · simp [firstTopSubject, List.find?_cons, h]

lemma viewLoop_topSubject (m : NMarks) :
    ∀ acc : ViewAcc, (viewLoop m acc).topSubject =
      if acc.topTotal < runMax acc.topTotal m
      then firstTopSubject m (runMax acc.topTotal m)
      else acc.topSubject := by
  induction m with
  | nil =>
    intro acc
    simp [viewLoop, runMax]
  | cons p rest ih =>
    intro acc
    have hM : runMax acc.topTotal (p :: rest)
        = runMax (max acc.topTotal (subjectTotal p.2)) rest := rfl
    rcases lt_or_le acc.topTotal (subjectTotal p.2) with hlt | hle
    · -- the head strictly improves the running maximum: the loop updates
      have hstep : viewStep acc p =
          { acc with totalIASum := acc.totalIASum + subjectTotal p.2
                     totalIACount := acc.totalIACount + 3
                     totalAttendance := acc.totalAttendance + p.2.attendance
                     topTotal := subjectTotal p.2
                     topSubject := some p.1 } := by
        simp [viewStep, hlt]
      have hmax : max acc.topTotal (subjectTotal p.2) = subjectTotal p.2 :=
        max_eq_right hlt.le
      rw [viewLoop, hstep, ih]
      simp only [hM, hmax]
      have hup : subjectTotal p.2 ≤ runMax (subjectTotal p.2) rest := le_runMax rest _
      have hcond : acc.topTotal < runMax (subjectTotal p.2) rest := lt_of_lt_of_le hlt hup
      rw [if_pos hcond, firstTopSubject_cons]
      rcases eq_or_lt_of_le hup with heq | hlt2
      · rw [if_neg (by omega), if_pos heq]
      · rw [if_pos hlt2, if_neg (by omega)]
    · -- the head does not improve the running maximum: nothing updates
      have hstep : viewStep acc p =
          { acc with totalIASum := acc.totalIASum + subjectTotal p.2
                     totalIACount := acc.totalIACount + 3
                     totalAttendance := acc.totalAttendance + p.2.attendance } := by
        simp [viewStep, not_lt.mpr hle]
      have hmax : max acc.topTotal (subjectTotal p.2) = acc.topTotal :=
        max_eq_left hle
      rw [viewLoop, hstep, ih]
      simp only [hM, hmax]
      by_cases hcond : acc.topTotal < runMax acc.topTotal rest
      · have := le_runMax rest acc.topTotal
        rw [if_pos hcond, if_pos hcond, firstTopSubject_cons,
          if_neg (by omega)]
      · rw [if_neg hcond, if_neg hcond]

/-! ### Agreement of the two conversion paths -/

/-- When the unguarded document-path conversion succeeds, the guarded
tabular-path normalization computes the same integer. -/
lemma normField_eq_of_pdfField (v : Option PyVal) (n : ℤ)
    (h : pdfField v = .ok n) : normField v = n := by
  unfold pdfField at h
  unfold normField
  rw [h]

lemma pdfAttSum_ok (m : Marks) :
    ∀ t, pdfAttSum m = .ok t → t = subjectsAttSum (normMarks m) := by
  induction m with
  | nil =>
    intro t h
    simp only [pdfAttSum] at h
    cases h
    simp [subjectsAttSum, normMarks]
  | cons p rest ih =>
    intro t h
    rw [pdfAttSum] at h
    cases hd : pdfField p.2.attendance with
    | error e => rw [hd] at h; simp at h
    | ok d =>
      cases hs : pdfAttSum rest with
      | error e => rw [hd, hs] at h; simp at h
      | ok s =>
        rw [hd, hs] at h
        simp only [Except.ok.injEq] at h
        subst h
        rw [ih s hs]
        simp [subjectsAttSum, normMarks, normSubject,
          normField_eq_of_pdfField _ _ hd]

lemma pdfIASum_ok (m : Marks) :
    ∀ t, pdfIASum m = .ok t → t = subjectsIASum (normMarks m) := by
  induction m with
  | nil =>
    intro t h
    simp only [pdfIASum] at h
    cases h
    simp [subjectsIASum, normMarks]
  | cons p rest ih =>
    intro t h
    rw [pdfIASum] at h
    cases ha : pdfField p.2.IA1 with
    | error e => rw [ha] at h; simp at h
    | ok a =>
      cases hb : pdfField p.2.IA2 with
      | error e => rw [ha, hb] at h; simp at h
      | ok b =>
        cases hc : pdfField p.2.IA3 with
        | error e => rw [ha, hb, hc] at h; simp at h
        | ok c =>
          cases hs : pdfIASum rest with
          | error e => rw [ha, hb, hc, hs] at h; simp at h
          | ok s =>
            rw [ha, hb, hc, hs] at h
            simp only [Except.ok.injEq] at h
            subst h
            rw [ih s hs]
            simp [subjectsIASum, normMarks, normSubject, subjectTotal,
              normField_eq_of_pdfField _ _ ha, normField_eq_of_pdfField _ _ hb,
              normField_eq_of_pdfField _ _ hc]

/-- Every row the document renderer emits carries a total equal to the sum
of its three displayed IA fields, and a status computed by `pdfStatus`
from its displayed attendance. -/
lemma pdfRows_ok_mem (m : Marks) :
    ∀ rows, pdfRows m = .ok rows → ∀ r ∈ rows,
      r.total = r.IA1 + r.IA2 + r.IA3 ∧ r.status = pdfStatus r.attendance := by
  induction m with
  | nil =>
    intro rows h r hr
    simp only [pdfRows] at h
    cases h
    cases hr
  | cons p rest ih =>
    intro rows h r hr
    rw [pdfRows] at h
    cases hs : pdfSubject p.2 with
    | error e => rw [hs] at h; simp at h
    | ok s =>
      cases ht : pdfRows rest with
      | error e => rw [hs, ht] at h; simp at h
      | ok tl =>
        rw [hs, ht] at h
        simp only [Except.ok.injEq] at h
        subst h
        rcases List.mem_cons.mp hr with hr | hr
        · subst hr
          exact ⟨rfl, rfl⟩
        · exact ih tl ht r hr

/-- Inversion of a successful `download_marksheet` run: the marks map is
nonempty and the two summary scalars are the rounded quotients of the
normalized sums. -/
lemma download_ok_parts (m : Marks) (s : PdfSummary)
    (h : download_marksheet_summary m = .ok s) :
    m.length ≠ 0 ∧
    s.avgIA = pyRoundFrac (subjectsIASum (normMarks m)) (3 * m.length) 2 ∧
    s.avgAtt = pyRoundFrac (subjectsAttSum (normMarks m)) (m.length : ℤ) 1 := by
  unfold download_marksheet_summary at h
  cases hia : pdfIASum m with
  | error e => rw [hia] at h; simp at h
  | ok a =>
    cases hat : pdfAttSum m with
    | error e => rw [hia, hat] at h; simp at h
    | ok t =>
      rw [hia, hat] at h
      dsimp only at h
      by_cases hl : m.length = 0
      · rw [if_pos hl] at h
        simp at h
      · rw [if_neg hl] at h
        cases hr : pdfRows m with
        | error e => rw [hr] at h; simp at h
        | ok rows =>
          rw [hr] at h
          simp only [Except.ok.injEq] at h
          refine ⟨hl, ?_, ?_⟩
          · rw [← h, pdfIASum_ok m a hia]
            simp [hl]
          · rw [← h, pdfAttSum_ok m t hat]

/-! ### The claims -/

/-- C1: on a marks record with an empty subjects map, `download_marksheet`
does NOT produce a PDF: its average-attendance computation divides by
`len(subjects) = 0` and raises `ZeroDivisionError`.  The adjacent
average-IA computation is guarded (`if subjects else 1`) and the spec
demands graceful degradation, so this is a defect of the code at the
zero-subject input. -/
theorem C1_zero_subjects_raises :
    download_marksheet_summary [] = .error "ZeroDivisionError: division by zero" := by
  rfl

/-- C2 counterexample: score normalization does raise in the document
path.  On a record saved with blank form fields (every field the empty
string, exactly what `save_all_marks` stores for an untouched row),
`download_marksheet`'s bare `int(...)` raises `ValueError`, so
normalization does not "never raise ... in both the tabular path and the
document path" as the claim states. -/
theorem C2_document_path_raises :
    download_marksheet_summary blankSubjectMarks
      = .error "ValueError: invalid literal for int: " := by
  rfl

/-- C2 amended: in the tabular path (`view_marks`) normalization
substitutes 0 on a missing key, an empty string, or any conversion
failure and never raises; in the document path (`download_marksheet`) a
missing key substitutes 0 but a failing conversion raises `ValueError`. -/
theorem C2_normalization_amended :
    normField none = 0 ∧
    (∀ s : String, pyIntOfString s = none → normField (some (.str s)) = 0) ∧
    (∀ (v : PyVal) (n : ℤ), pyInt v = .ok n → normField (some v) = n) ∧
    pdfField none = .ok 0 ∧
    (∀ s : String, pyIntOfString s = none →
      pdfField (some (.str s)) = .error ("ValueError: invalid literal for int: " ++ s)) := by
  refine ⟨rfl, ?_, ?_, rfl, ?_⟩
  · intro s hs
    unfold normField
    simp [pyInt, hs]
  · intro v n hv
    unfold normField
    simp [hv]
  · intro s hs
    unfold pdfField
    simp [pyInt, hs]

/-- C2 witness: the amended statement evaluated at the empty string (the
stored blank field) and at a non-numeric string. -/
theorem C2_normalization_amended_witness :
    normField (some (.str "")) = 0 ∧
      pdfField (some (.str "abc")) = .error "ValueError: invalid literal for int: abc" :=
  ⟨C2_normalization_amended.2.1 "" (by decide),
   C2_normalization_amended.2.2.2.2 "abc" (by decide)⟩

/-- C3 counterexample: the two renderers disagree on averageIA.  On a
single subject with IA scores 10, 10, 11, `view_marks` reports
`round(31/3, 1) = 10.3` while `download_marksheet` reports
`round(31/3, 2) = 10.33`, so the two renderers do not "report identical
numeric summary values". -/
theorem C3_rounding_divergence :
    download_marksheet_summary oneSubjectMarks = .ok oneSubjectSummary ∧
      viewAvgIA (normMarks oneSubjectMarks) = Rat.divInt 103 10 ∧
      oneSubjectSummary.avgIA ≠ Rat.divInt 103 10 := by
  refine ⟨by decide, by decide, by decide⟩

/-- C3 amended: whenever `download_marksheet` succeeds, its average
attendance equals the one `view_marks` computes from the same stored
marks; the average IA values are the same quotient rounded to different
precisions — 2 decimal places in the document, 1 in the table — and can
therefore differ. -/
theorem C3_summary_agreement_amended (m : Marks) (s : PdfSummary)
    (h : download_marksheet_summary m = .ok s) :
    s.avgAtt = viewAvgAtt (normMarks m) ∧
    s.avgIA = pyRoundFrac (subjectsIASum (normMarks m)) (3 * m.length) 2 ∧
    viewAvgIA (normMarks m) = pyRoundFrac (subjectsIASum (normMarks m)) (3 * m.length) 1 := by
  obtain ⟨hl, hIA, hAtt⟩ := download_ok_parts m s h
  have hlen : (normMarks m).length = m.length := List.length_map _ _
  have hpos : 0 < m.length := Nat.pos_of_ne_zero hl
  refine ⟨?_, hIA, ?_⟩
  · rw [hAtt, viewAvgAtt, hlen, if_pos hpos, viewAgg,
      viewLoop_totalAttendance, zero_add]
  · rw [viewAvgIA]
    have hcount : (viewAgg (normMarks m)).totalIACount = 3 * m.length := by
      rw [viewAgg, viewLoop_totalIACount, hlen]
      ring
    have hsum : (viewAgg (normMarks m)).totalIASum = subjectsIASum (normMarks m) := by
      rw [viewAgg, viewLoop_totalIASum, zero_add]
    simp only [hcount, hsum]
    rw [if_pos (by positivity)]

/-- C3 witness: the amended agreement evaluated on a concrete
single-subject record. -/
theorem C3_summary_agreement_amended_witness :
    download_marksheet_summary oneSubjectMarks = .ok oneSubjectSummary ∧
      oneSubjectSummary.avgAtt = viewAvgAtt (normMarks oneSubjectMarks) :=
  ⟨by decide,
   (C3_summary_agreement_amended oneSubjectMarks oneSubjectSummary (by decide)).1⟩

/-- C4: `view_marks` aggregation computes
`averageIA = round(sum of all IA1, IA2, IA3 across subjects / (3 * subjectCount), 1)`
and `averageAttendance = round(sum of attendancePercent / subjectCount, 1)`,
and both are 0 on zero subjects with no division-by-zero fault (the
divisions are guarded by `if total_ia_count > 0` / `if total_subjects > 0`). -/
theorem C4_view_averages (m : NMarks) :
    viewAvgIA m = (if m.length = 0 then 0
      else pyRound ((subjectsIASum m : ℚ) / ((3 * m.length : ℤ) : ℚ)) 1) ∧
    viewAvgAtt m = (if m.length = 0 then 0
      else pyRound ((subjectsAttSum m : ℚ) / ((m.length : ℤ) : ℚ)) 1) := by
  have hcount : (viewAgg m).totalIACount = 3 * m.length := by
    rw [viewAgg, viewLoop_totalIACount]
    ring
  have hsum : (viewAgg m).totalIASum = subjectsIASum m := by
    rw [viewAgg, viewLoop_totalIASum, zero_add]
  have hatt : (viewAgg m).totalAttendance = subjectsAttSum m := by
    rw [viewAgg, viewLoop_totalAttendance, zero_add]
  constructor
  · rw [viewAvgIA]
    simp only [hcount, hsum]
    by_cases hl : m.length = 0
    · rw [if_neg (by simp [hl]), if_pos hl]
    · have hpos : (0 : ℤ) < 3 * m.length := by
        have := Nat.pos_of_ne_zero hl
        positivity
      rw [if_pos hpos, if_neg hl, pyRoundFrac_eq_pyRound _ _ hpos]
  · rw [viewAvgAtt]
    simp only [hatt]
    by_cases hl : m.length = 0
    · rw [if_neg (by simp [hl]), if_pos hl]
    · have hpos : 0 < m.length := Nat.pos_of_ne_zero hl
      have hposZ : (0 : ℤ) < (m.length : ℤ) := by exact_mod_cast hpos
      rw [if_pos hpos, if_neg hl, pyRoundFrac_eq_pyRound _ _ hposZ]

/-- C5 counterexample: on a nonempty normalized map whose only subject
has a negative IA total (scores stored as "-5" normalize to -5),
`top_subject` remains `None`, because the running maximum starts at -1
and is only beaten by a strictly greater total.  The claim requires the
(unique, hence maximal) subject to be selected here. -/
theorem C5_negative_totals_counterexample :
    viewTopSubject negativeMarks = none ∧ negativeMarks ≠ [] := by
  exact ⟨by decide, by decide⟩

/-- C5 amended: `top_subject` is the first subject in iteration order
whose IA total equals the maximum, provided that maximum is ≥ 0 (always
the case for nonnegative scores); on an empty map — or when every
subject's total is negative, since the running maximum starts at -1
under strict `>` — it is `None`.  Ties keep the first subject, and every
subject's total is bounded by the maximum. -/
theorem C5_top_subject_amended (m : NMarks) :
    viewTopSubject m =
      (if 0 ≤ runMax (-1) m then firstTopSubject m (runMax (-1) m) else none) ∧
    ∀ p ∈ m, subjectTotal p.2 ≤ runMax (-1) m := by
  constructor
  · have h := viewLoop_topSubject m ⟨0, 0, 0, -1, none⟩
    rw [viewTopSubject, viewAgg, h]
    by_cases hc : (-1 : ℤ) < runMax (-1) m
    · rw [if_pos hc, if_pos (by omega)]
    · rw [if_neg hc, if_neg (by omega)]
  · exact mem_le_runMax m (-1)

/-- C5 witness: on two subjects tied at total 30 the first one wins, and
its total is bounded by the maximum. -/
theorem C5_top_subject_amended_witness :
    viewTopSubject tiedMarks = some "SubjectA" ∧
      subjectTotal (⟨10, 10, 10, 80⟩ : NSubject) ≤ runMax (-1) tiedMarks := by
  have h := C5_top_subject_amended tiedMarks
  exact ⟨h.1.trans (by decide), h.2 ("SubjectA", ⟨10, 10, 10, 80⟩) (by decide)⟩

/-- C6: every table row of the document renderer carries status
"Eligible" exactly when its attendance is at least 75, "Shortage"
exactly when it is below 75, and the boundary value 75 itself is
eligible. -/
theorem C6_eligibility (m : Marks) (rows : List PdfRow)
    (h : pdfRows m = .ok rows) :
    (∀ r ∈ rows, (r.status = "Eligible" ↔ 75 ≤ r.attendance) ∧
      (r.status = "Shortage" ↔ r.attendance < 75)) ∧
    pdfStatus 75 = "Eligible" := by
  constructor
  · intro r hr
    have hst := (pdfRows_ok_mem m rows h r hr).2
    rw [hst]
    unfold pdfStatus
    by_cases hc : (75 : ℤ) ≤ r.attendance
    · rw [if_pos hc]
      exact ⟨⟨fun _ => hc, fun _ => rfl⟩,
        ⟨fun heq => absurd heq (by decide), fun hlt => absurd hc (not_le.mpr hlt)⟩⟩
    · rw [if_neg hc]
      exact ⟨⟨fun heq => absurd heq (by decide), fun hle => absurd hle hc⟩,
        ⟨fun _ => not_le.mp hc, fun _ => rfl⟩⟩
  · decide

/-- C6 witness: on the boundary record, attendance 75 is marked
Eligible and attendance 74 is marked Shortage. -/
theorem C6_eligibility_witness :
    pdfRows boundaryMarks = .ok boundaryRows ∧
      (⟨"SubjectA", 20, 20, 20, 75, 60, "Eligible"⟩ : PdfRow).status = "Eligible" ∧
      (⟨"SubjectB", 20, 20, 20, 74, 60, "Shortage"⟩ : PdfRow).status = "Shortage" := by
  have h := C6_eligibility boundaryMarks boundaryRows (by decide)
  refine ⟨by decide, ?_, ?_⟩
  · exact ((h.1 _ (by decide)).1).mpr (by decide)
  · exact ((h.1 _ (by decide)).2).mpr (by decide)

/-- C7 counterexample: the stored scores are never range-checked, so a
subject saved with the string "100" in each IA field normalizes to
100+100+100 = 300, and the rendered row's total 300 is far outside
[0, 90]; the claim's range assertion fails on the code. -/
theorem C7_total_out_of_range :
    pdfRows outOfRangeMarks = .ok [⟨"Subject1", 100, 100, 100, 0, 300, "Shortage"⟩] ∧
      subjectTotal (normSubject outOfRangeSubject) = 300 ∧
      ¬ subjectTotal (normSubject outOfRangeSubject) ≤ 90 := by
  exact ⟨by decide, by decide, by decide⟩

/-- C7 amended: every rendered row's total equals the sum of its three
displayed IA fields; the total lies in [0, 90] whenever each IA field
lies in [0, 30], but the code performs no range validation, so the bound
does not hold for arbitrary stored values. -/
theorem C7_total_amended (m : Marks) (rows : List PdfRow)
    (h : pdfRows m = .ok rows) :
    ∀ r ∈ rows, r.total = r.IA1 + r.IA2 + r.IA3 ∧
      (0 ≤ r.IA1 → r.IA1 ≤ 30 → 0 ≤ r.IA2 → r.IA2 ≤ 30 → 0 ≤ r.IA3 → r.IA3 ≤ 30 →
        0 ≤ r.total ∧ r.total ≤ 90) := by
  intro r hr
  have h1 := (pdfRows_ok_mem m rows h r hr).1
  exact ⟨h1, fun h2 h3 h4 h5 h6 h7 => by omega⟩

/-- C7 witness: the amended statement evaluated on the boundary record,
whose first row has total 60 = 20 + 20 + 20 within [0, 90]. -/
theorem C7_total_amended_witness :
    (⟨"SubjectA", 20, 20, 20, 75, 60, "Eligible"⟩ : PdfRow).total = 20 + 20 + 20 ∧
      0 ≤ (60 : ℤ) ∧ (60 : ℤ) ≤ 90 := by
  have h := C7_total_amended boundaryMarks boundaryRows (by decide)
      ⟨"SubjectA", 20, 20, 20, 75, 60, "Eligible"⟩ (by decide)
  exact ⟨h.1, (h.2 (by decide) (by decide) (by decide) (by decide) (by decide) (by decide)).1,
    (h.2 (by decide) (by decide) (by decide) (by decide) (by decide) (by decide)).2⟩

/-- C8: the claim says terms range over [1,8], but both `range(1, 8)`
loops produce only 1..7: the branch dashboard offers semesters 1..7 for
entering marks, and deleting a student purges the marks partitions of
semesters 1..7 only — a record in `marks_sem8` survives the deletion,
even though the code elsewhere (the `upload_notes` subjects table and
the unvalidated student `semester` field) treats semester 8 as valid. -/
theorem C8_term_range_off_by_one :
    branchDashboardSemesters = [1, 2, 3, 4, 5, 6, 7] ∧
    deleteStudentSemesters = [1, 2, 3, 4, 5, 6, 7] ∧
    8 ∉ deleteStudentSemesters ∧
    8 ∈ uploadNotesSemesters ∧
    deleteStudentMarks storeX "X" 8 = storeX 8 ∧
    ("X", oneSubjectMarks) ∈ deleteStudentMarks storeX "X" 8 ∧
    ("X", oneSubjectMarks) ∉ deleteStudentMarks storeX "X" 1 := by
  exact ⟨by decide, by decide, by decide, by decide, by decide, by decide, by decide⟩

/-- C9: both student renderers resolve the semester as
`int(student.get("semester", semester))`, so when the student document
carries a `semester` field, two requests that differ only in the URL
path parameter produce identical outputs in the tabular and in the
document renderer; the URL value is consulted only as a fallback. -/
theorem C9_url_semester_ignored (student : StudentDoc) (bySem : ℤ → Marks)
    (u1 u2 : ℤ) (h : hasKey student "semester" = true) :
    viewMarksForRequest student bySem u1 = viewMarksForRequest student bySem u2 ∧
    downloadForRequest student bySem u1 = downloadForRequest student bySem u2 := by
  unfold hasKey at h
  obtain ⟨p, hp⟩ := Option.isSome_iff_exists.mp h
  have hget : ∀ u : ℤ, dictGet student "semester" (.int u) = p.2 := by
    intro u
    unfold dictGet
    rw [hp]
  have hsem : effectiveSemester student u1 = effectiveSemester student u2 := by
    unfold effectiveSemester
    rw [hget u1, hget u2]
  constructor
  · unfold viewMarksForRequest
    rw [hsem]
  · unfold downloadForRequest
    rw [hsem]

/-- C9 witness: a student document carrying `semester = 3`, queried with
URL parameters 1 and 5, yields the same tabular output. -/
theorem C9_url_semester_ignored_witness :
    hasKey studentWithSemester "semester" = true ∧
      viewMarksForRequest studentWithSemester demoBySem 1
        = viewMarksForRequest studentWithSemester demoBySem 5 :=
  ⟨by decide,
   (C9_url_semester_ignored studentWithSemester demoBySem 1 5 (by decide)).1⟩

/-- C10: the eligibility decision of `download_marksheet` compares
attendance with the literal 75 and never consults
`Config.ATTENDANCE_THRESHOLD`: any two runs under different configured
thresholds produce identical statuses and identical summaries, and under
a configured threshold of 90 an attendance of 80 is still marked
Eligible although 80 is below that threshold. -/
theorem C10_threshold_not_consulted :
    (∀ (c1 c2 : Config) (att : ℤ), pdfStatusRun c1 att = pdfStatusRun c2 att) ∧
    (∀ (c1 c2 : Config) (m : Marks), downloadRun c1 m = downloadRun c2 m) ∧
    pdfStatusRun ⟨90⟩ 80 = "Eligible" ∧
    (80 : ℚ) < (⟨90⟩ : Config).ATTENDANCE_THRESHOLD := by
  refine ⟨fun _ _ _ => rfl, fun _ _ _ => rfl, by decide, by norm_num⟩

end CLGPortal
